import Mathlib

/-!
Verification development for the `ae-gpcam` ROI reduction consumer
(`src/ae_gpcam/bluesky_config/scripts/roi_reduction_consumer.py`).

The Python source is shallowly embedded over exact rationals:
numpy floating-point scalars are modelled as `Option ℚ`, where `none`
stands for NaN (the value numpy produces, with a warning but no
exception, when taking the mean of an empty slice).  Python exceptions
are modelled with `Except`.
-/

deriving instance DecidableEq for Except

namespace AeGpcam

/-- Scalar of the embedding: a numpy float, `none` meaning NaN. -/
abbrev NQ := Option ℚ

/-- NaN-propagating addition. -/
def nadd : NQ → NQ → NQ
  | some a, some b => some (a + b)
  | _, _ => none

/-- NaN-propagating subtraction. -/
def nsub : NQ → NQ → NQ
  | some a, some b => some (a - b)
  | _, _ => none

/-- NaN-propagating multiplication. -/
def nmul : NQ → NQ → NQ
  | some a, some b => some (a * b)
  | _, _ => none

/-- NaN-propagating halving, used for the background average. -/
def nhalf : NQ → NQ
  | some a => some (a / 2)
  | none => none

/-- Sum of a numpy array (`np.sum`): an empty array sums to `0`, and a
single NaN entry poisons the whole sum. -/
def nsum (l : List NQ) : NQ := l.foldr nadd (some 0)

/-- Left-insertion point of `v` in `Q`, the value of
`np.searchsorted(Q, v)` for a monotonically increasing `Q`: the lowest
index `i` such that `v ≤ Q[i]`, or `Q.length` if there is none. -/
def searchsorted (Q : List ℚ) (v : ℚ) : Nat :=
  Q.findIdx (fun x => decide (v ≤ x))

/-- Normalisation of one Python slice endpoint for a sequence of length
`n`: negative endpoints count from the end (and clamp at `0`),
non-negative ones clamp at `n`. -/
def sliceIdx (n : Nat) (i : Int) : Nat :=
  if i < 0 then ((n : Int) + i).toNat else min i.toNat n

/-- Python slice `l[a:b]` (step 1), with the usual wrap-around of
negative endpoints and clamping at the ends. -/
def pySlice (l : List ℚ) (a b : Int) : List ℚ :=
  (l.take (sliceIdx l.length b)).drop (sliceIdx l.length a)

/-- The mean of a numpy array (`np.mean`): NaN on an empty array. -/
def npMean (l : List ℚ) : NQ :=
  if l.length = 0 then none else some (l.sum / l.length)

/-- Consecutive differences (`np.diff`). -/
def npDiff : List ℚ → List ℚ
  | a :: b :: rest => (b - a) :: npDiff (b :: rest)
  | _ => []

/-- Elementwise product of a NaN-aware array with a plain array under
numpy broadcasting for one-dimensional shapes: the shapes `(m,)` and
`(n,)` are compatible iff `m = n`, `m = 1` or `n = 1`; incompatible
shapes raise `ValueError` (modelled as `none`). -/
def bcastMul (xs : List NQ) (ys : List ℚ) : Option (List NQ) :=
  if xs.length = ys.length then some (List.zipWith nmul xs (ys.map some))
  else if xs.length = 1 then some (ys.map (fun y => nmul (xs.headD none) (some y)))
  else if ys.length = 1 then some (xs.map (fun x => nmul x (some (ys.headD 0))))
  else none

/-!
The translation of `compute_peak_area(Q, I, q_start, q_stop)`
(roi_reduction_consumer.py lines 225-263).  Each local variable of the
Python function becomes one definition below; `compute_peak_area`
assembles them exactly as the source does.  The `Except` layer models
the one exception numpy can raise here, the `ValueError` of an
incompatible broadcast; everything else, including the NaN produced by
the mean of an empty background slice, is an ordinary return value.
-/

/-- The local `start` of the source: `np.searchsorted(Q, q_start)`. -/
def peakStart (Q : List ℚ) (q_start : ℚ) : Nat := searchsorted Q q_start

/-- The local `stop` of the source after the `stop += 1` line:
`np.searchsorted(Q, q_stop) + 1`. -/
def peakStop (Q : List ℚ) (q_stop : ℚ) : Nat := searchsorted Q q_stop + 1

/-- The local `data_section = I[start:stop]`. -/
def data_section (Q I : List ℚ) (q_start q_stop : ℚ) : List ℚ :=
  pySlice I (peakStart Q q_start : Int) (peakStop Q q_stop : Int)

/-- The local `q_section = Q[start : stop + 1]`. -/
def q_section (Q : List ℚ) (q_start q_stop : ℚ) : List ℚ :=
  pySlice Q (peakStart Q q_start : Int) ((peakStop Q q_stop : Int) + 1)

/-- The local `dQ = np.diff(q_section)`. -/
def dQ (Q : List ℚ) (q_start q_stop : ℚ) : List ℚ := npDiff (q_section Q q_start q_stop)

/-- The local `background = (np.mean(I[start - 3 : start]) + np.mean(I[stop : stop + 3])) / 2`. -/
def background (Q I : List ℚ) (q_start q_stop : ℚ) : NQ :=
  nhalf (nadd (npMean (pySlice I ((peakStart Q q_start : Int) - 3) (peakStart Q q_start : Int)))
              (npMean (pySlice I (peakStop Q q_stop : Int) ((peakStop Q q_stop : Int) + 3))))

/-- The return value `np.sum((data_section - background) * dQ)`. -/
def compute_peak_area (Q I : List ℚ) (q_start q_stop : ℚ) : Except Unit NQ :=
  match bcastMul ((data_section Q I q_start q_stop).map
      (fun x => nsub (some x) (background Q I q_start q_stop))) (dQ Q q_start q_stop) with
  | none => .error ()
  | some prods => .ok (nsum prods)

/-- Exact mean of a non-empty list of rationals, used on the
specification side of the refinement. -/
def qmean (l : List ℚ) : ℚ := l.sum / l.length

/-- Background level as the specification words it: the average of the
mean of the 3 samples before `start` and the mean of the 3 samples
after `stop`. -/
def specBackground (I : List ℚ) (start stop : Nat) : ℚ :=
  (qmean (pySlice I ((start : Int) - 3) (start : Int)) +
   qmean (pySlice I (stop : Int) ((stop : Int) + 3))) / 2

/-- The claimed value of `compute_peak_area`, written the way the
specification states it: `sum((I[start:stop] - background) * dQ)` with
`dQ[k] = Q[start+k+1] - Q[start+k]` spelled out index by index. -/
def specPeakArea (Q I : List ℚ) (q_start q_stop : ℚ) : ℚ :=
  let s := peakStart Q q_start
  let t := peakStop Q q_stop
  let bg := specBackground I s t
  ∑ k ∈ Finset.range (t - s),
    (I.getD (s + k) 0 - bg) * (Q.getD (s + k + 1) 0 - Q.getD (s + k) 0)

/-! Small algebraic facts about the NaN-aware scalars. -/

@[simp] lemma nadd_some (a b : ℚ) : nadd (some a) (some b) = some (a + b) := rfl

@[simp] lemma nsub_some (a b : ℚ) : nsub (some a) (some b) = some (a - b) := rfl

@[simp] lemma nmul_some (a b : ℚ) : nmul (some a) (some b) = some (a * b) := rfl

@[simp] lemma nhalf_some (a : ℚ) : nhalf (some a) = some (a / 2) := rfl

lemma nsum_map_some (l : List ℚ) : nsum (l.map some) = some l.sum := by
  induction l with
  | nil => rfl
  | cons x xs ih =>
    simp only [List.map_cons, nsum, List.foldr_cons] at ih ⊢
    rw [ih, nadd_some, List.sum_cons]

lemma npMean_eq (l : List ℚ) (h : l.length ≠ 0) : npMean l = some (qmean l) := by
  simp [npMean, qmean, h]

/-! Facts about Python slices and numpy helpers. -/

lemma pySlice_eq (l : List ℚ) (a b : ℕ) (ha : a ≤ l.length) (hb : b ≤ l.length) :
    pySlice l (a : ℤ) (b : ℤ) = (l.take b).drop a := by
  have h1 : sliceIdx l.length (b : ℤ) = b := by unfold sliceIdx; split <;> omega
  have h2 : sliceIdx l.length (a : ℤ) = a := by unfold sliceIdx; split <;> omega
  rw [pySlice, h1, h2]

lemma pySlice_back (l : List ℚ) (s : ℕ) (h3 : 3 ≤ s) (hs : s ≤ l.length) :
    pySlice l ((s : ℤ) - 3) (s : ℤ) = (l.take s).drop (s - 3) := by
  have h1 : sliceIdx l.length (s : ℤ) = s := by unfold sliceIdx; split <;> omega
  have h2 : sliceIdx l.length ((s : ℤ) - 3) = s - 3 := by unfold sliceIdx; split <;> omega
  rw [pySlice, h1, h2]

lemma slice_length (l : List ℚ) (a b : ℕ) (hb : b ≤ l.length) (hab : a ≤ b) :
    ((l.take b).drop a).length = b - a := by
  simp only [List.length_drop, List.length_take]
  omega

lemma getD_slice (l : List ℚ) (a b k : ℕ) (hk : a + k < b) :
    ((l.take b).drop a).getD k 0 = l.getD (a + k) 0 := by
  simp only [List.getD_eq_getElem?_getD, List.getElem?_drop, List.getElem?_take, if_pos hk]

lemma npDiff_length : ∀ l : List ℚ, (npDiff l).length = l.length - 1
  | [] => rfl
  | [_] => rfl
  | a :: b :: rest => by
    have := npDiff_length (b :: rest)
    simp only [npDiff, List.length_cons] at this ⊢
    omega

lemma npDiff_getD : ∀ (l : List ℚ) (k : ℕ), k + 1 < l.length →
    (npDiff l).getD k 0 = l.getD (k + 1) 0 - l.getD k 0
  | [], k, h => by simp at h
  | [_], k, h => by simp at h
  | _ :: _ :: _, 0, _ => by simp [npDiff]
  | a :: b :: rest, k + 1, h => by
    have h' : k + 1 < (b :: rest).length := by
      simp only [List.length_cons] at h ⊢; omega
    simp only [npDiff, List.getD_cons_succ]
    exact npDiff_getD (b :: rest) k h'

lemma searchsorted_mono (Q : List ℚ) {a b : ℚ} (hab : a ≤ b) :
    searchsorted Q a ≤ searchsorted Q b := by
  induction Q with
  | nil => simp [searchsorted]
  | cons x xs ih =>
    simp only [searchsorted, List.findIdx_cons] at ih ⊢
    by_cases hax : a ≤ x
    · simp [hax]
    · have hbx : ¬ b ≤ x := fun h => hax (le_trans hab h)
      rw [decide_eq_false hax, decide_eq_false hbx]
      simp only [cond_false]
      exact Nat.succ_le_succ ih

lemma searchsorted_le_length (Q : List ℚ) (v : ℚ) : searchsorted Q v ≤ Q.length :=
  List.findIdx_le_length _

lemma sum_zipWith_range (f : ℚ → ℚ → ℚ) :
    ∀ (xs ys : List ℚ), xs.length = ys.length →
      (List.zipWith f xs ys).sum =
        ∑ k ∈ Finset.range xs.length, f (xs.getD k 0) (ys.getD k 0)
  | [], [], _ => by simp
  | [], _ :: _, h => by simp at h
  | _ :: _, [], h => by simp at h
  | x :: xs, y :: ys, h => by
    have hlen : xs.length = ys.length := by
      simp only [List.length_cons] at h; omega
    simp only [List.zipWith_cons_cons, List.sum_cons, List.length_cons]
    rw [Finset.sum_range_succ']
    simp only [List.getD_cons_succ, List.getD_cons_zero]
    rw [sum_zipWith_range f xs ys hlen]
    ring

/-! Characterisation of the pieces of `compute_peak_area` when the
window and both background slices lie inside the arrays. -/

lemma peakStart_lt_peakStop (Q : List ℚ) {qs qt : ℚ} (h : qs ≤ qt) :
    peakStart Q qs < peakStop Q qt :=
  Nat.lt_succ_of_le (searchsorted_mono Q h)

lemma peakStop_le_lengthQ (Q : List ℚ) (qt : ℚ) : peakStop Q qt ≤ Q.length + 1 :=
  Nat.succ_le_succ (searchsorted_le_length Q qt)

lemma data_section_eq (Q I : List ℚ) (qs qt : ℚ)
    (hs : peakStart Q qs ≤ I.length) (ht : peakStop Q qt ≤ I.length) :
    data_section Q I qs qt = (I.take (peakStop Q qt)).drop (peakStart Q qs) :=
  pySlice_eq I _ _ hs ht

lemma q_section_eq (Q : List ℚ) (qs qt : ℚ)
    (hs : peakStart Q qs ≤ Q.length) (ht : peakStop Q qt + 1 ≤ Q.length) :
    q_section Q qs qt = (Q.take (peakStop Q qt + 1)).drop (peakStart Q qs) := by
  have hcast : ((peakStop Q qt : ℤ) + 1) = ((peakStop Q qt + 1 : ℕ) : ℤ) := by push_cast; ring
  rw [q_section, hcast]
  exact pySlice_eq Q _ _ hs ht

lemma background_eq (Q I : List ℚ) (qs qt : ℚ)
    (h3 : 3 ≤ peakStart Q qs) (hs : peakStart Q qs ≤ I.length)
    (ht : peakStop Q qt + 3 ≤ I.length) :
    background Q I qs qt = some (specBackground I (peakStart Q qs) (peakStop Q qt)) := by
  have hcast : ((peakStop Q qt : ℤ) + 3) = ((peakStop Q qt + 3 : ℕ) : ℤ) := by push_cast; ring
  have e3 : pySlice I ((peakStart Q qs : ℤ) - 3) (peakStart Q qs : ℤ)
      = (I.take (peakStart Q qs)).drop (peakStart Q qs - 3) := pySlice_back I _ h3 hs
  have e4 : pySlice I (peakStop Q qt : ℤ) ((peakStop Q qt : ℤ) + 3)
      = (I.take (peakStop Q qt + 3)).drop (peakStop Q qt) := by
    rw [hcast]; exact pySlice_eq I _ _ (by omega) ht
  have l3 : ((I.take (peakStart Q qs)).drop (peakStart Q qs - 3)).length = 3 := by
    rw [slice_length I _ _ hs (by omega)]; omega
  have l4 : ((I.take (peakStop Q qt + 3)).drop (peakStop Q qt)).length = 3 := by
    rw [slice_length I _ _ ht (by omega)]; omega
  rw [background, specBackground, e3, e4,
    npMean_eq _ (by rw [l3]; omega), npMean_eq _ (by rw [l4]; omega),
    nadd_some, nhalf_some]

/-- Key refinement fact shared by several claims: whenever the window
and its 3-sample background flanks lie inside the arrays,
`compute_peak_area` returns (without raising and without NaN) exactly
the sum the specification describes. -/
lemma compute_peak_area_eq_spec (Q I : List ℚ) (qs qt : ℚ)
    (hlen : Q.length = I.length) (hqs : qs ≤ qt)
    (h3 : 3 ≤ peakStart Q qs)
    (hstop : peakStop Q qt + 3 ≤ I.length) :
    compute_peak_area Q I qs qt = .ok (some (specPeakArea Q I qs qt)) := by
  have hst : peakStart Q qs < peakStop Q qt := peakStart_lt_peakStop Q hqs
  have hsI : peakStart Q qs ≤ I.length := by omega
  have htI : peakStop Q qt ≤ I.length := by omega
  have htQ : peakStop Q qt + 1 ≤ Q.length := by omega
  have hdata := data_section_eq Q I qs qt hsI htI
  have hq := q_section_eq Q qs qt (by omega) htQ
  have hbg := background_eq Q I qs qt h3 hsI hstop
  have ldata : (data_section Q I qs qt).length = peakStop Q qt - peakStart Q qs := by
    rw [hdata, slice_length I _ _ htI (by omega)]
  have lq : (q_section Q qs qt).length = peakStop Q qt + 1 - peakStart Q qs := by
    rw [hq, slice_length Q _ _ htQ (by omega)]
  have ldq : (dQ Q qs qt).length = peakStop Q qt - peakStart Q qs := by
    rw [dQ, npDiff_length, lq]; omega
  -- reduce the broadcast to the equal-length branch
  simp only [compute_peak_area]
  rw [hbg]
  have hmapped : (data_section Q I qs qt).map
      (fun x => nsub (some x) (some (specBackground I (peakStart Q qs) (peakStop Q qt))))
      = (data_section Q I qs qt).map
          (fun x => some (x - specBackground I (peakStart Q qs) (peakStop Q qt))) := by
    simp only [nsub_some]
  rw [hmapped]
  have hblen : ((data_section Q I qs qt).map
      (fun x => some (x - specBackground I (peakStart Q qs) (peakStop Q qt)))).length
      = (dQ Q qs qt).length := by
    rw [List.length_map, ldata, ldq]
  rw [bcastMul, if_pos hblen]
  -- collapse the NaN layer to a plain rational sum
  rw [List.zipWith_map_left]
  have hzip : List.zipWith
      (fun a b => nmul (some (a - specBackground I (peakStart Q qs) (peakStop Q qt))) b)
      (data_section Q I qs qt) ((dQ Q qs qt).map some)
      = (List.zipWith (fun a b => (a - specBackground I (peakStart Q qs) (peakStop Q qt)) * b)
          (data_section Q I qs qt) (dQ Q qs qt)).map some := by
    rw [List.map_zipWith, List.zipWith_map_right]
    rfl
  rw [hzip]
  dsimp only
  rw [nsum_map_some, sum_zipWith_range _ _ _ (by rw [ldata, ldq])]
  -- identify the summand with the specification formula
  simp only [specPeakArea, ldata]
  refine congrArg (fun z : ℚ => (Except.ok (some z) : Except Unit NQ)) ?_
  refine Finset.sum_congr rfl ?_
  intro k hk
  have hk' : k < peakStop Q qt - peakStart Q qs := Finset.mem_range.mp hk
  have hdk : (data_section Q I qs qt).getD k 0 = I.getD (peakStart Q qs + k) 0 := by
    rw [hdata]
    exact getD_slice I _ _ k (by omega)
  have hq1 : (q_section Q qs qt).getD k 0 = Q.getD (peakStart Q qs + k) 0 := by
    rw [hq]
    exact getD_slice Q _ _ k (by omega)
  have hq2 : (q_section Q qs qt).getD (k + 1) 0 = Q.getD (peakStart Q qs + k + 1) 0 := by
    rw [hq]
    have := getD_slice Q (peakStart Q qs) (peakStop Q qt + 1) (k + 1) (by omega)
    rw [this]
    exact congrArg (fun n => Q.getD n 0) (by omega)
  have hdq : (dQ Q qs qt).getD k 0
      = Q.getD (peakStart Q qs + k + 1) 0 - Q.getD (peakStart Q qs + k) 0 := by
    rw [dQ, npDiff_getD _ k (by rw [lq]; omega), hq1, hq2]
  rw [hdk, hdq]

/-! NaN propagation through the scalar operations. -/

@[simp] lemma nadd_none_left (y : NQ) : nadd none y = none := by cases y <;> rfl

@[simp] lemma nadd_none_right (x : NQ) : nadd x none = none := by cases x <;> rfl

@[simp] lemma nsub_none_right (x : NQ) : nsub x none = none := by cases x <;> rfl

@[simp] lemma nmul_none_left (y : NQ) : nmul none y = none := by cases y <;> rfl

@[simp] lemma nhalf_none : nhalf none = none := rfl

lemma background_none (Q I : List ℚ) (qs qt : ℚ)
    (hempty : pySlice I ((peakStart Q qs : ℤ) - 3) (peakStart Q qs : ℤ) = []
      ∨ pySlice I (peakStop Q qt : ℤ) ((peakStop Q qt : ℤ) + 3) = []) :
    background Q I qs qt = none := by
  rcases hempty with h | h <;>
    rw [background, h] <;>
    simp [npMean]

/-! Constant-offset behaviour of the specification-side quantities. -/

lemma sum_map_add_const : ∀ (l : List ℚ) (c : ℚ),
    (l.map (fun x => x + c)).sum = l.sum + l.length * c
  | [], c => by simp
  | x :: xs, c => by
    simp only [List.map_cons, List.sum_cons, List.length_cons, sum_map_add_const xs c]
    push_cast
    ring

lemma qmean_map_add (l : List ℚ) (c : ℚ) (h : l ≠ []) :
    qmean (l.map (fun x => x + c)) = qmean l + c := by
  have h0 : (l.length : ℚ) ≠ 0 := by
    simpa using fun hh => h (List.length_eq_zero.mp hh)
  rw [qmean, qmean, List.length_map, sum_map_add_const]
  field_simp
  ring

lemma pySlice_map (l : List ℚ) (f : ℚ → ℚ) (a b : ℤ) :
    pySlice (l.map f) a b = (pySlice l a b).map f := by
  rw [pySlice, pySlice, List.length_map, ← List.map_take, ← List.map_drop]

lemma getD_map_add (l : List ℚ) (c : ℚ) (i : ℕ) (h : i < l.length) :
    (l.map (fun x => x + c)).getD i 0 = l.getD i 0 + c := by
  rw [List.getD_eq_getElem?_getD, List.getD_eq_getElem?_getD, List.getElem?_map,
    List.getElem?_eq_getElem h]
  rfl

/-- C1: with the whole window and both 3-sample background flanks inside
the arrays, `compute_peak_area` returns exactly
`sum((I[start:stop] - background) * dQ)` with `start`/`stop` the
left-insertion points of the window in `Q`, `stop` incremented by one,
`dQ[k] = Q[start+k+1] - Q[start+k]` and
`background = (mean(I[start-3:start]) + mean(I[stop:stop+3])) / 2`. -/
theorem claim_C1_integrate_formula (Q I : List ℚ) (qs qt : ℚ)
    (hmono : List.Chain' (· < ·) Q)
    (hlen : Q.length = I.length) (hqs : qs ≤ qt)
    (h3 : 3 ≤ peakStart Q qs)
    (hstop : peakStop Q qt + 3 ≤ I.length) :
    compute_peak_area Q I qs qt = .ok (some (specPeakArea Q I qs qt)) :=
  compute_peak_area_eq_spec Q I qs qt hlen hqs h3 hstop

/-- Witness for C1 at the concrete peak of the specification's test
scenario, padded so that the background flanks exist. -/
theorem claim_C1_integrate_formula_witness :
    List.Chain' (· < ·) ([1,2,3,4,5,6,7,8,9,10,11,12] : List ℚ)
    ∧ ([1,2,3,4,5,6,7,8,9,10,11,12] : List ℚ).length = ([0,0,0,5,10,10,5,0,0,0,0,0] : List ℚ).length
    ∧ (7/2 : ℚ) ≤ 13/2
    ∧ 3 ≤ peakStart [1,2,3,4,5,6,7,8,9,10,11,12] (7/2)
    ∧ peakStop [1,2,3,4,5,6,7,8,9,10,11,12] (13/2) + 3 ≤ ([0,0,0,5,10,10,5,0,0,0,0,0] : List ℚ).length
    ∧ compute_peak_area [1,2,3,4,5,6,7,8,9,10,11,12] [0,0,0,5,10,10,5,0,0,0,0,0] (7/2) (13/2)
        = .ok (some (specPeakArea [1,2,3,4,5,6,7,8,9,10,11,12] [0,0,0,5,10,10,5,0,0,0,0,0] (7/2) (13/2))) :=
  ⟨by norm_num [List.chain'_cons],
   by norm_num,
   by norm_num,
   by norm_num [peakStart, searchsorted, List.findIdx_cons],
   by norm_num [peakStop, searchsorted, List.findIdx_cons],
   claim_C1_integrate_formula _ _ _ _
     (by norm_num [List.chain'_cons])
     (by norm_num)
     (by norm_num)
     (by norm_num [peakStart, searchsorted, List.findIdx_cons])
     (by norm_num [peakStop, searchsorted, List.findIdx_cons])⟩

/-- C4 counterexample: at `Q = [0,1,2,3,4,5]`, `I = [1,1,1,1,1,1]`,
window `(-1, 2)`, the clamped left background slice `I[start-3:start]`
is empty, yet `compute_peak_area` does not fail: it returns a value
(NaN, `none` in the model).  No `InsufficientDataError` exists in the
code. -/
theorem claim_C4_counterexample :
    pySlice [1,1,1,1,1,1] ((peakStart [0,1,2,3,4,5] (-1) : ℤ) - 3) (peakStart [0,1,2,3,4,5] (-1) : ℤ) = []
    ∧ compute_peak_area [0,1,2,3,4,5] [1,1,1,1,1,1] (-1) 2 = .ok none := by
  constructor
  · decide
  · decide

/-- C4 amended: when a clamped background window is empty (and the
region of interest is non-empty with matching shapes), the function
does not raise at all; the empty-slice mean is NaN and the NaN
propagates to an ordinary return value. -/
theorem claim_C4_amended_nan (Q I : List ℚ) (qs qt : ℚ)
    (hbc : (data_section Q I qs qt).length = (dQ Q qs qt).length)
    (hne : data_section Q I qs qt ≠ [])
    (hempty : pySlice I ((peakStart Q qs : ℤ) - 3) (peakStart Q qs : ℤ) = []
      ∨ pySlice I (peakStop Q qt : ℤ) ((peakStop Q qt : ℤ) + 3) = []) :
    compute_peak_area Q I qs qt = .ok none := by
  have hbgn : background Q I qs qt = none := background_none Q I qs qt hempty
  obtain ⟨a, as, hda⟩ := List.exists_cons_of_ne_nil hne
  have hdqne : dQ Q qs qt ≠ [] := by
    intro h0
    rw [hda, h0] at hbc
    simp at hbc
  obtain ⟨b, bs, hdb⟩ := List.exists_cons_of_ne_nil hdqne
  simp only [compute_peak_area, hbgn, nsub_none_right]
  rw [bcastMul, if_pos (by rw [List.length_map]; exact hbc), hda, hdb]
  simp only [List.map_cons, List.zipWith_cons_cons, nmul_none_left, nsum, List.foldr_cons,
    nadd_none_left]

/-- Witness for the amended C4 at the counterexample input. -/
theorem claim_C4_amended_nan_witness :
    (data_section [0,1,2,3,4,5] [1,1,1,1,1,1] (-1) 2).length
        = (dQ [0,1,2,3,4,5] (-1) 2).length
    ∧ data_section [0,1,2,3,4,5] [1,1,1,1,1,1] (-1) 2 ≠ []
    ∧ compute_peak_area [0,1,2,3,4,5] [1,1,1,1,1,1] (-1) 2 = .ok none :=
  ⟨by decide, by decide,
   claim_C4_amended_nan _ _ _ _ (by decide) (by decide) (Or.inl (by decide))⟩

/-- C8: adding a constant offset to `I` leaves the integral unchanged,
because the recomputed background absorbs the offset exactly (exact
rational arithmetic; the window and background flanks must lie inside
the arrays). -/
theorem claim_C8_offset_invariance (Q I : List ℚ) (c qs qt : ℚ)
    (hmono : List.Chain' (· < ·) Q)
    (hlen : Q.length = I.length) (hqs : qs ≤ qt)
    (h3 : 3 ≤ peakStart Q qs)
    (hstop : peakStop Q qt + 3 ≤ I.length) :
    compute_peak_area Q (I.map (fun x => x + c)) qs qt = compute_peak_area Q I qs qt := by
  have hst : peakStart Q qs < peakStop Q qt := peakStart_lt_peakStop Q hqs
  have hsI : peakStart Q qs ≤ I.length := by omega
  have hlen' : Q.length = (I.map (fun x => x + c)).length := by
    rw [List.length_map]; exact hlen
  have hstop' : peakStop Q qt + 3 ≤ (I.map (fun x => x + c)).length := by
    rw [List.length_map]; exact hstop
  rw [compute_peak_area_eq_spec Q _ qs qt hlen' hqs h3 hstop',
    compute_peak_area_eq_spec Q I qs qt hlen hqs h3 hstop]
  refine congrArg (fun z : ℚ => (Except.ok (some z) : Except Unit NQ)) ?_
  -- the two background slices are non-empty, so their means shift by c
  have e3 := pySlice_back I (peakStart Q qs) h3 hsI
  have l3 : (pySlice I ((peakStart Q qs : ℤ) - 3) (peakStart Q qs : ℤ)).length = 3 := by
    rw [e3, slice_length I _ _ hsI (by omega)]; omega
  have hcast : ((peakStop Q qt : ℤ) + 3) = ((peakStop Q qt + 3 : ℕ) : ℤ) := by push_cast; ring
  have e4 : pySlice I (peakStop Q qt : ℤ) ((peakStop Q qt : ℤ) + 3)
      = (I.take (peakStop Q qt + 3)).drop (peakStop Q qt) := by
    rw [hcast]; exact pySlice_eq I _ _ (by omega) hstop
  have l4 : (pySlice I (peakStop Q qt : ℤ) ((peakStop Q qt : ℤ) + 3)).length = 3 := by
    rw [e4, slice_length I _ _ hstop (by omega)]; omega
  have h1 : pySlice I ((peakStart Q qs : ℤ) - 3) (peakStart Q qs : ℤ) ≠ [] := by
    intro h0; rw [h0] at l3; simp at l3
  have h2 : pySlice I (peakStop Q qt : ℤ) ((peakStop Q qt : ℤ) + 3) ≠ [] := by
    intro h0; rw [h0] at l4; simp at l4
  have hbg : specBackground (I.map (fun x => x + c)) (peakStart Q qs) (peakStop Q qt)
      = specBackground I (peakStart Q qs) (peakStop Q qt) + c := by
    rw [specBackground, specBackground, pySlice_map, pySlice_map,
      qmean_map_add _ _ h1, qmean_map_add _ _ h2]
    ring
  simp only [specPeakArea, hbg]
  refine Finset.sum_congr rfl ?_
  intro k hk
  have hk' : k < peakStop Q qt - peakStart Q qs := Finset.mem_range.mp hk
  have hidx : peakStart Q qs + k < I.length := by omega
  rw [getD_map_add I c _ hidx]
  ring

/-- Witness for C8 at a concrete window and offset. -/
theorem claim_C8_offset_invariance_witness :
    List.Chain' (· < ·) ([1,2,3,4,5,6,7,8,9,10,11,12] : List ℚ)
    ∧ ([1,2,3,4,5,6,7,8,9,10,11,12] : List ℚ).length = ([0,0,0,5,10,10,5,0,0,0,0,0] : List ℚ).length
    ∧ (7/2 : ℚ) ≤ 13/2
    ∧ 3 ≤ peakStart [1,2,3,4,5,6,7,8,9,10,11,12] (7/2)
    ∧ peakStop [1,2,3,4,5,6,7,8,9,10,11,12] (13/2) + 3 ≤ ([0,0,0,5,10,10,5,0,0,0,0,0] : List ℚ).length
    ∧ compute_peak_area [1,2,3,4,5,6,7,8,9,10,11,12]
        (([0,0,0,5,10,10,5,0,0,0,0,0] : List ℚ).map (fun x => x + 5)) (7/2) (13/2)
        = compute_peak_area [1,2,3,4,5,6,7,8,9,10,11,12] [0,0,0,5,10,10,5,0,0,0,0,0] (7/2) (13/2) :=
  ⟨by norm_num [List.chain'_cons],
   by norm_num,
   by norm_num,
   by norm_num [peakStart, searchsorted, List.findIdx_cons],
   by norm_num [peakStop, searchsorted, List.findIdx_cons],
   claim_C8_offset_invariance _ _ 5 _ _
     (by norm_num [List.chain'_cons])
     (by norm_num)
     (by norm_num)
     (by norm_num [peakStart, searchsorted, List.findIdx_cons])
     (by norm_num [peakStop, searchsorted, List.findIdx_cons])⟩

/-!
The per-run consumer `ROIPicker` (roi_reduction_consumer.py lines
111-222) together with `parse_name` (lines 266-294) and the factory
`xpdan_result_picker_factory` (lines 297-305).

The publisher bound in `__init__` is modelled by the ordered trace of
emissions accumulated in the consumer state (`out`); a Python exception
escaping a handler is modelled by the `Bool` component of each step
(`false` = the handler raised).
-/

/-- Digit string to its value, `none` when empty or non-numeric
(`int`/`float` conversion failure). -/
def pyParseDigits (cs : List Char) : Option ℕ :=
  if cs = [] then none
  else cs.foldl (fun acc c => match acc with
    | none => none
    | some n => if c.isDigit then some (n * 10 + (c.toNat - 48)) else none) (some 0)

/-- Python `int(s)` on a decimal literal with optional sign (whitespace
tolerance and underscores of the full syntax are not modelled; the
sample names never use them). -/
def pyParseInt (s : String) : Option ℤ :=
  match s.data with
  | '-' :: rest => (pyParseDigits rest).map (fun n => -(n : ℤ))
  | '+' :: rest => (pyParseDigits rest).map (fun n => (n : ℤ))
  | cs => (pyParseDigits cs).map (fun n => (n : ℤ))

/-- Unsigned decimal with optional fractional part, as accepted by
Python `float` (exponents, `inf`/`nan` and underscores not modelled). -/
def parseUnsignedDec (cs : List Char) : Option ℚ :=
  let ip := cs.takeWhile Char.isDigit
  let rest := cs.dropWhile Char.isDigit
  let ipv : ℕ := ip.foldl (fun acc c => acc * 10 + (c.toNat - 48)) 0
  match rest with
  | [] => if ip = [] then none else some (ipv : ℚ)
  | '.' :: fp =>
    if fp.all Char.isDigit ∧ (ip ≠ [] ∨ fp ≠ []) then
      some ((ipv : ℚ) + (fp.foldl (fun acc c => acc * 10 + (c.toNat - 48)) 0 : ℕ)
        / (10 : ℚ) ^ fp.length)
    else none
  | _ => none

/-- Python `float(s)` on the literals reachable from `parse_name`. -/
def pyParseFloat (s : String) : Option ℚ :=
  match s.data with
  | '-' :: rest => (parseUnsignedDec rest).map Neg.neg
  | '+' :: rest => parseUnsignedDec rest
  | cs => parseUnsignedDec cs

/-- Python substring test (`needle in hay`). -/
def listInfix (needle hay : List Char) : Bool :=
  (List.range (hay.length + 1)).any (fun i => needle.isPrefixOf (hay.drop i))

/-- The dictionary `parse_name` builds for a well-formed sample name. -/
structure ParsedName where
  comp : List (String × ℤ)
  temp : ℚ
  anneal_time : ℚ
  batch : List ℤ
  position : List ℤ
deriving DecidableEq

/-- Conversion failure of an `Option`-valued parse into the Python
`ValueError` it raises. -/
def expectSome {α : Type} : Option α → Except Unit α
  | some a => .ok a
  | none => .error ()

/-- `tuple(map(int, s.split("-")))`: every part must parse. -/
def pyIntList : List String → Except Unit (List ℤ)
  | [] => .ok []
  | p :: rest => do
    let v ← expectSome (pyParseInt p)
    let vs ← pyIntList rest
    .ok (v :: vs)

/-- The conversions after the unpacking in `parse_name`, in source
order: `float(time...)`, `float(temp...)`, the `comp` dictionary, then
`batch` and `position`. -/
def finishParse (comp temp time batch coord : String) : Except Unit (Option ParsedName) := do
  let timeV ← expectSome (pyParseFloat ((time.replace "p" ".").dropRight 3))
  let tempV ← expectSome (pyParseFloat (temp.dropRight 1))
  let c1 ← expectSome (pyParseInt ((comp.take 4).drop 2))
  let c2 ← expectSome (pyParseInt (comp.drop 6))
  let batchV ← pyIntList (batch.splitOn "-")
  let coordV ← pyIntList (coord.splitOn "-")
  .ok (some { comp := [(comp.take 2, c1), ((comp.take 6).drop 4, c2)],
              temp := tempV, anneal_time := timeV, batch := batchV, position := coordV })

/-- Translation of `parse_name` (lines 266-294): `None` for empty
positions and unparseable shapes, a `ValueError` (`Except.error`) when
a numeric conversion after the unpacking fails. -/
def parse_name (inp : String) : Except Unit (Option ParsedName) :=
  if listInfix "empty".data inp.data then .ok none
  else match inp.splitOn "_" with
    | [comp, temp, time, batch, coord] => finishParse comp temp time batch coord
    | [comp, pristene, batch, coord] =>
        if pristene = "Pristine" then finishParse comp "25C" "0min" batch coord
        else .ok none
    | _ => .ok none

/-- NaN-aware mean of a numpy array of already-computed scalars. -/
def nmean (l : List NQ) : NQ :=
  if l.length = 0 then none else
    match nsum l with
    | none => none
    | some s => some (s / l.length)

/-- NaN-aware population variance (`np.var`):
`mean((x - mean(x))^2)`. -/
def nvar (l : List NQ) : NQ :=
  nmean (l.map (fun x => nmul (nsub x (nmean l)) (nsub x (nmean l))))

/-- One row appended to `self._data` for each `(Q, I)` pair of an
event page. -/
structure Row where
  I_00 : NQ
  Q_00 : ℚ
  ctrl_Ti : ℚ
  ctrl_annealing_time : ℚ
  ctrl_temp : ℚ
deriving DecidableEq

/-- Metadata carried by the derived start document
(`compose_run(metadata=dict(raw_uid=..., integrated_uid=...,
batch_count=...))`). -/
structure StartMeta where
  raw_uid : String
  integrated_uid : String
  batch_count : Option ℕ
deriving DecidableEq

/-- One publication through the bound publisher, tagged as the source
tags it. -/
inductive Emission where
  | start (m : StartMeta)
  | descriptor
  | event (d : List (String × NQ))
  | stop
deriving DecidableEq

/-- The fields of an incoming start document that the consumer and the
factory read. -/
structure StartDoc where
  uid : String
  original_start_uid : String
  sample_name : Option String
  batch_count : Option ℕ
  analysis_stage : Option String
deriving DecidableEq

/-- An incoming event page: `doc["data"]["q"]` and
`doc["data"]["mean"]`, one curve per row. -/
structure EventPageDoc where
  q : List (List ℚ)
  mean : List (List ℚ)
deriving DecidableEq

/-- State of one `ROIPicker`: the trace of emissions so far, whether
`desc_bundle` has been composed, the accumulation buffer `_data`
(`none` is Python `None`), the configured peak window, and the
attributes set by `start`. -/
structure ROIPicker where
  out : List Emission
  descMade : Bool
  data : Option (List Row)
  peak_location : ℚ × ℚ
  source_uid : Option String
  sample_name : Option String
deriving DecidableEq

/-- `ROIPicker.__init__(publisher, peak_location)`: `desc_bundle =
None`, `_data = None`. -/
def ROIPicker.init (pl : ℚ × ℚ) : ROIPicker :=
  ⟨[], false, none, pl, none, none⟩

/-- `ROIPicker.start`: record the source uid and sample name, compose
the derived run and publish its start document. -/
def ROIPicker.start (s : ROIPicker) (d : StartDoc) : ROIPicker :=
  { s with source_uid := some d.original_start_uid,
           sample_name := d.sample_name,
           out := s.out ++ [Emission.start ⟨d.original_start_uid, d.uid, d.batch_count⟩] }

/-- Control values for the rows of an event page: when a sample name is
present, `parse_name` runs (only for its effect and possible
`ValueError`) and the source hard-codes `ti = 1.0, at = 2, temp = 3.0`;
otherwise it hard-codes `4.0, 5, 6.0`. -/
def ctrlVals (sample_name : Option String) : Except Unit (ℚ × ℚ × ℚ) :=
  match sample_name with
  | some nm =>
    match parse_name nm with
    | .error e => .error e
    | .ok _ => .ok (1, 2, 3)
  | none => .ok (4, 5, 6)

/-- The `for Q, I in zip(doc["data"]["q"], doc["data"]["mean"])` loop:
reduce each row and append it to the buffer; an exception from
`compute_peak_area` aborts the loop with the rows appended so far. -/
def addRows (pl : ℚ × ℚ) (ti atv temp : ℚ) :
    ROIPicker → List (List ℚ × List ℚ) → ROIPicker × Bool
  | s, [] => (s, true)
  | s, (Qr, Ir) :: rest =>
    match compute_peak_area Qr Ir pl.1 pl.2 with
    | .error _ => (s, false)
    | .ok v =>
      addRows pl ti atv temp
        { s with data :=
            s.data.map (fun l => l ++ [⟨v, (pl.1 + pl.2) / 2, ti, atv, temp⟩]) }
        rest

/-- `ROIPicker.event_page`: on the first page compose and publish the
descriptor and set `_data = []`; then compute the control values and
append one reduced row per curve. -/
def ROIPicker.event_page (s : ROIPicker) (d : EventPageDoc) : ROIPicker × Bool :=
  let s1 := if s.descMade then s
            else { s with descMade := true, data := some [],
                          out := s.out ++ [Emission.descriptor] }
  match ctrlVals s1.sample_name with
  | .error _ => (s1, false)
  | .ok (ti, atv, temp) => addRows s1.peak_location ti atv temp s1 (d.q.zip d.mean)

/-- The `data = {k: np.mean([d[k] for d in self._data]) for k in keys}`
dictionary of `ROIPicker.stop`, plus the appended `I_00_variance`, in
insertion order. -/
def eventRow (rows : List Row) : List (String × NQ) :=
  [("I_00", nmean (rows.map Row.I_00)),
   ("Q_00", nmean (rows.map (fun r => some r.Q_00))),
   ("ctrl_Ti", nmean (rows.map (fun r => some r.ctrl_Ti))),
   ("ctrl_annealing_time", nmean (rows.map (fun r => some r.ctrl_annealing_time))),
   ("ctrl_temp", nmean (rows.map (fun r => some r.ctrl_temp))),
   ("I_00_variance", nvar (rows.map Row.I_00))]

/-- `ROIPicker.stop`: `len(self._data)` raises `TypeError` when no
event page ever arrived (`_data` still `None`); otherwise publish the
aggregate event for a non-empty buffer and always publish the derived
stop document. -/
def ROIPicker.stop (s : ROIPicker) : ROIPicker × Bool :=
  match s.data with
  | none => (s, false)
  | some rows =>
    let s1 := if rows.length ≠ 0
              then { s with out := s.out ++ [Emission.event (eventRow rows)] }
              else s
    ({ s1 with out := s1.out ++ [Emission.stop] }, true)

/-- Deliver a list of event pages in order.  Each document is
dispatched by `_poll` as its own `loop.call_soon` callback, so an
exception escaping one handler is reported by the event loop and the
later documents are still delivered; the `Bool` records whether every
page was handled without an escaping exception. -/
def procPages : ROIPicker → List EventPageDoc → ROIPicker × Bool
  | s, [] => (s, true)
  | s, p :: ps =>
    match s.event_page p with
    | (s1, ok1) =>
      match procPages s1 ps with
      | (s2, ok2) => (s2, ok1 && ok2)

/-- One run as the router delivers it to a bound consumer: the start
document, every event page in order, then the stop document — the stop
is delivered even if an earlier callback raised, because each dispatch
is an independent callback.  The `Bool` records whether the whole run
was handled without an escaping exception. -/
def runConsumer (pl : ℚ × ℚ) (sd : StartDoc) (pages : List EventPageDoc) :
    ROIPicker × Bool :=
  match procPages ((ROIPicker.init pl).start sd) pages with
  | (s1, ok1) =>
    match s1.stop with
    | (s2, ok2) => (s2, ok1 && ok2)

/-- The factory closure returned by
`xpdan_result_picker_factory(zmq_publisher, peak_location)`: one new
consumer when the start document's `analysis_stage` is
`"integration"`, nobody otherwise (the bound publisher is represented
by the consumer's emission trace). -/
def xpdan_result_picker_factory (pl : ℚ × ℚ) (nm : String) (sd : StartDoc) :
    List ROIPicker × List Unit :=
  if sd.analysis_stage.getD "" = "integration" then ([ROIPicker.init pl], []) else ([], [])

/-! Invariants of the per-run consumer. -/

lemma addRows_inv (pl : ℚ × ℚ) (ti atv tv : ℚ) :
    ∀ (rows : List (List ℚ × List ℚ)) (s : ROIPicker),
      (addRows pl ti atv tv s rows).1.out = s.out
      ∧ (addRows pl ti atv tv s rows).1.descMade = s.descMade
      ∧ (addRows pl ti atv tv s rows).1.data.isSome = s.data.isSome
  | [], s => ⟨rfl, rfl, rfl⟩
  | (Qr, Ir) :: rest, s => by
    simp only [addRows]
    cases hv : compute_peak_area Qr Ir pl.1 pl.2 with
    | error e => exact ⟨rfl, rfl, rfl⟩
    | ok v =>
      have ih := addRows_inv pl ti atv tv rest
        { s with data := s.data.map (fun l => l ++ [⟨v, (pl.1 + pl.2) / 2, ti, atv, tv⟩]) }
      refine ⟨ih.1, ih.2.1, ?_⟩
      rw [ih.2.2]
      cases s.data <;> rfl

lemma event_page_first (s : ROIPicker) (d : EventPageDoc)
    (h : s.descMade = false) :
    (s.event_page d).1.out = s.out ++ [Emission.descriptor]
    ∧ (s.event_page d).1.descMade = true
    ∧ (s.event_page d).1.data.isSome = true := by
  simp only [ROIPicker.event_page, h, Bool.false_eq_true, if_false]
  cases hc : ctrlVals s.sample_name with
  | error e => exact ⟨rfl, rfl, rfl⟩
  | ok v =>
    obtain ⟨ti, atv, tv⟩ := v
    have := addRows_inv s.peak_location ti atv tv (d.q.zip d.mean)
      { s with descMade := true, data := some [],
               out := s.out ++ [Emission.descriptor] }
    exact ⟨this.1, this.2.1, this.2.2⟩

lemma event_page_inv (s : ROIPicker) (d : EventPageDoc)
    (hd : s.descMade = true) (hs : s.data.isSome = true) :
    (s.event_page d).1.out = s.out
    ∧ (s.event_page d).1.descMade = true
    ∧ (s.event_page d).1.data.isSome = true := by
  simp only [ROIPicker.event_page, hd, if_true]
  cases hc : ctrlVals s.sample_name with
  | error e => exact ⟨rfl, hd, hs⟩
  | ok v =>
    obtain ⟨ti, atv, tv⟩ := v
    have := addRows_inv s.peak_location ti atv tv (d.q.zip d.mean) s
    exact ⟨this.1, this.2.1.trans hd, this.2.2.trans hs⟩

lemma procPages_inv : ∀ (pages : List EventPageDoc) (s : ROIPicker),
    s.descMade = true → s.data.isSome = true →
    (procPages s pages).1.out = s.out
    ∧ (procPages s pages).1.descMade = true
    ∧ (procPages s pages).1.data.isSome = true
  | [], s, hd, hs => ⟨rfl, hd, hs⟩
  | p :: ps, s, hd, hs => by
    obtain ⟨s1, b, hp⟩ : ∃ s1 b, s.event_page p = (s1, b) := ⟨_, _, rfl⟩
    have h1 := event_page_inv s p hd hs
    rw [hp] at h1
    obtain ⟨ho, hdm, hds⟩ := h1
    have h2 := procPages_inv ps s1 hdm hds
    obtain ⟨s2, b2, hp2⟩ : ∃ s2 b2, procPages s1 ps = (s2, b2) := ⟨_, _, rfl⟩
    rw [hp2] at h2
    simp only [procPages, hp, hp2]
    exact ⟨h2.1.trans ho, h2.2.1, h2.2.2⟩

/-- C2 counterexample: a run with zero event pages.  The claim promises
exactly one derived Stop for any `N ≥ 0`, but the consumer emits only
the derived Start and then raises at Stop (`len(None)` on the
still-`None` buffer), so no derived Stop is ever published. -/
theorem claim_C2_counterexample :
    (runConsumer (1, 2) ⟨"uidA", "origA", none, none, some "integration"⟩ []).1.out
        = [Emission.start ⟨"origA", "uidA", none⟩]
    ∧ (runConsumer (1, 2) ⟨"uidA", "origA", none, none, some "integration"⟩ []).2 = false :=
  ⟨rfl, rfl⟩

/-- C2 amended: for every run with at least one event page, the
consumer publishes exactly one derived Start, then exactly one derived
Descriptor, then at most one derived Event, then exactly one derived
Stop, in that order — even when a row's reduction raises, because each
document is delivered in its own callback and the descriptor has
already been published before anything in `event_page` can raise. -/
theorem claim_C2_amended_emissions (pl : ℚ × ℚ) (sd : StartDoc) (pages : List EventPageDoc)
    (hne : pages ≠ []) :
    (runConsumer pl sd pages).1.out
        = [Emission.start ⟨sd.original_start_uid, sd.uid, sd.batch_count⟩,
           Emission.descriptor, Emission.stop]
    ∨ ∃ d, (runConsumer pl sd pages).1.out
        = [Emission.start ⟨sd.original_start_uid, sd.uid, sd.batch_count⟩,
           Emission.descriptor, Emission.event d, Emission.stop] := by
  obtain ⟨p, ps, rfl⟩ := List.exists_cons_of_ne_nil hne
  obtain ⟨s1, b, hp⟩ : ∃ s1 b, ((ROIPicker.init pl).start sd).event_page p = (s1, b) :=
    ⟨_, _, rfl⟩
  have hfirst := event_page_first ((ROIPicker.init pl).start sd) p rfl
  rw [hp] at hfirst
  obtain ⟨ho1, hdm1, hds1⟩ := hfirst
  obtain ⟨s2, b2, hp2⟩ : ∃ s2 b2, procPages s1 ps = (s2, b2) := ⟨_, _, rfl⟩
  have hinv := procPages_inv ps s1 hdm1 hds1
  rw [hp2] at hinv
  obtain ⟨ho2, hdm2, hds2⟩ := hinv
  obtain ⟨rows, hrows⟩ := Option.isSome_iff_exists.mp hds2
  have hout2 : s2.out = [Emission.start ⟨sd.original_start_uid, sd.uid, sd.batch_count⟩,
      Emission.descriptor] := by
    rw [ho2, ho1]
    rfl
  simp only [runConsumer, procPages, hp, hp2]
  obtain ⟨o2, dm2, dt2, pl2, su2, sn2⟩ := s2
  simp only at hout2 hrows
  subst hout2 hrows
  by_cases hrnil : rows = []
  · left
    subst hrnil
    simp [ROIPicker.stop]
  · right
    exact ⟨eventRow rows, by simp [ROIPicker.stop, hrnil]⟩

/-- Witness for the amended C2 on a one-page run. -/
theorem claim_C2_amended_emissions_witness :
    ([⟨[[1,2,3,4,5,6,7,8,9,10,11,12]], [[0,0,0,5,10,10,5,0,0,0,0,0]]⟩] : List EventPageDoc) ≠ []
    ∧ ((runConsumer (4, 6) ⟨"u2", "o2", none, none, some "integration"⟩
        [⟨[[1,2,3,4,5,6,7,8,9,10,11,12]], [[0,0,0,5,10,10,5,0,0,0,0,0]]⟩]).1.out
          = [Emission.start ⟨"o2", "u2", none⟩, Emission.descriptor, Emission.stop]
      ∨ ∃ d, (runConsumer (4, 6) ⟨"u2", "o2", none, none, some "integration"⟩
          [⟨[[1,2,3,4,5,6,7,8,9,10,11,12]], [[0,0,0,5,10,10,5,0,0,0,0,0]]⟩]).1.out
            = [Emission.start ⟨"o2", "u2", none⟩, Emission.descriptor,
               Emission.event d, Emission.stop]) :=
  ⟨by decide,
   claim_C2_amended_emissions _ _ _ (by decide)⟩

/-- C3: the failing input is a run whose Stop arrives after no event
page at all.  The buffer is still `None`, so `len(self._data)` raises
`TypeError`: the run does not close cleanly and no derived Stop is
emitted, contradicting the specification's requirement. -/
theorem claim_C3_empty_run_crash :
    (runConsumer (2, 3) ⟨"u3", "o3", none, none, some "integration"⟩ []).2 = false
    ∧ (runConsumer (2, 3) ⟨"u3", "o3", none, none, some "integration"⟩ []).1.out
        = [Emission.start ⟨"o3", "u3", none⟩] :=
  ⟨rfl, rfl⟩

/-- C5: when the buffer holds rows at Stop, the single derived Event
carries, for each accumulated field, the arithmetic mean of that field
over all buffered rows, plus `I_00_variance`, the variance of the
buffered `I_00` values; it is followed by the derived Stop. -/
theorem claim_C5_stop_aggregates (s : ROIPicker) (rows : List Row)
    (hd : s.data = some rows) (hne : rows ≠ []) :
    (ROIPicker.stop s).1.out = s.out ++ [Emission.event (eventRow rows), Emission.stop]
    ∧ (ROIPicker.stop s).2 = true
    ∧ (eventRow rows).lookup "I_00" = some (nmean (rows.map Row.I_00))
    ∧ (eventRow rows).lookup "Q_00" = some (nmean (rows.map (fun r => some r.Q_00)))
    ∧ (eventRow rows).lookup "ctrl_Ti" = some (nmean (rows.map (fun r => some r.ctrl_Ti)))
    ∧ (eventRow rows).lookup "ctrl_annealing_time"
        = some (nmean (rows.map (fun r => some r.ctrl_annealing_time)))
    ∧ (eventRow rows).lookup "ctrl_temp" = some (nmean (rows.map (fun r => some r.ctrl_temp)))
    ∧ (eventRow rows).lookup "I_00_variance" = some (nvar (rows.map Row.I_00)) := by
  have hlen : rows.length ≠ 0 := fun h => hne (List.length_eq_zero.mp h)
  refine ⟨?_, ?_, rfl, rfl, rfl, rfl, rfl, rfl⟩
  · simp only [ROIPicker.stop, hd, if_pos hlen, List.append_assoc]
    rfl
  · simp only [ROIPicker.stop, hd, if_pos hlen]

/-- Witness for C5 on a two-row buffer. -/
theorem claim_C5_stop_aggregates_witness :
    (ROIPicker.mk [] true (some [⟨some 1, 2, 3, 4, 5⟩, ⟨some 3, 2, 3, 4, 5⟩]) (1, 3) none none).data
        = some [⟨some 1, 2, 3, 4, 5⟩, ⟨some 3, 2, 3, 4, 5⟩]
    ∧ ([⟨some 1, 2, 3, 4, 5⟩, ⟨some 3, 2, 3, 4, 5⟩] : List Row) ≠ []
    ∧ (ROIPicker.stop (ROIPicker.mk [] true
          (some [⟨some 1, 2, 3, 4, 5⟩, ⟨some 3, 2, 3, 4, 5⟩]) (1, 3) none none)).1.out
        = [] ++ [Emission.event (eventRow [⟨some 1, 2, 3, 4, 5⟩, ⟨some 3, 2, 3, 4, 5⟩]),
                 Emission.stop]
    ∧ (eventRow [⟨some 1, 2, 3, 4, 5⟩, ⟨some 3, 2, 3, 4, 5⟩]).lookup "I_00"
        = some (nmean (([⟨some 1, 2, 3, 4, 5⟩, ⟨some 3, 2, 3, 4, 5⟩] : List Row).map Row.I_00)) := by
  refine ⟨rfl, by decide, ?_, ?_⟩
  · exact (claim_C5_stop_aggregates _ _ rfl (by decide)).1
  · exact (claim_C5_stop_aggregates
      (ROIPicker.mk [] true (some [⟨some 1, 2, 3, 4, 5⟩, ⟨some 3, 2, 3, 4, 5⟩]) (1, 3) none none)
      _ rfl (by decide)).2.2.1

/-- C7: the factory returns exactly one freshly initialised consumer
(holding the configured peak window) when the start document's
`analysis_stage` equals `"integration"`, and no consumers otherwise;
the subscriber list is always empty. -/
theorem claim_C7_factory_filter (pl : ℚ × ℚ) (nm : String) (sd : StartDoc) :
    xpdan_result_picker_factory pl nm sd
      = (if sd.analysis_stage = some "integration" then [ROIPicker.init pl] else [], []) := by
  rw [xpdan_result_picker_factory]
  cases hs : sd.analysis_stage with
  | none => simp
  | some a =>
    by_cases ha : a = "integration" <;> simp [ha]

/-- Witness for C7 on an `"integration"` start document. -/
theorem claim_C7_factory_filter_witness :
    xpdan_result_picker_factory (1, 2) "start" ⟨"u7", "o7", none, none, some "integration"⟩
      = (if (some "integration" : Option String) = some "integration"
          then [ROIPicker.init (1, 2)] else [], []) :=
  claim_C7_factory_filter (1, 2) "start" ⟨"u7", "o7", none, none, some "integration"⟩

/-!
The subscriber transport `RemoteDispatcher` (roi_reduction_consumer.py
lines 18-108).  Messages are byte strings (lists of byte values); the
space byte is `32`.  The deserializer is a parameter, as in
`__init__`; the bound 0MQ socket itself is represented by the list of
messages the loop receives.  The `name = name.decode()` step (line 82,
outside the `try`) is modelled by a strict UTF-8 decoder: like
Python's default codec it rejects bad lead and continuation bytes,
overlong encodings, surrogates and values above U+10FFFF, and its
failure is an uncaught `UnicodeDecodeError`.
-/

/-- A received 0MQ message: a list of byte values. -/
abbrev Bytes := List Nat

/-- The members of `bluesky.run_engine.DocumentNames`, the valid keys
of `DocumentNames[name]` after the name bytes are decoded. -/
def documentNames : List (List Char) :=
  ["start", "descriptor", "resource", "event", "datum", "stop",
   "event_page", "datum_page", "bulk_events", "bulk_datum"].map String.data

/-- Byte-by-byte strict UTF-8 decoding: `pending` counts the
continuation bytes still expected, `acc` is the partial code point and
`lo` the smallest value the finished code point may take (rejecting
overlong encodings); surrogates and values above U+10FFFF are
rejected on completion. -/
def utf8Aux : List Nat → Nat → Nat → Nat → Option (List Char)
  | [], pending, _, _ => if pending = 0 then some [] else none
  | b :: rest, 0, _, _ =>
    if b < 128 then (utf8Aux rest 0 0 0).map (fun cs => Char.ofNat b :: cs)
    else if 194 ≤ b ∧ b ≤ 223 then utf8Aux rest 1 (b - 192) 128
    else if 224 ≤ b ∧ b ≤ 239 then utf8Aux rest 2 (b - 224) 2048
    else if 240 ≤ b ∧ b ≤ 244 then utf8Aux rest 3 (b - 240) 65536
    else none
  | b :: rest, pending + 1, acc, lo =>
    if 128 ≤ b ∧ b ≤ 191 then
      if pending = 0 then
        if lo ≤ acc * 64 + (b - 128) ∧ acc * 64 + (b - 128) ≤ 1114111
            ∧ ¬(55296 ≤ acc * 64 + (b - 128) ∧ acc * 64 + (b - 128) ≤ 57343) then
          (utf8Aux rest 0 0 0).map (fun cs => Char.ofNat (acc * 64 + (b - 128)) :: cs)
        else none
      else utf8Aux rest pending (acc * 64 + (b - 128)) lo
    else none

/-- Python `bytes.decode()` with the default strict UTF-8 codec:
`none` is the `UnicodeDecodeError`. -/
def utf8Decode (l : Bytes) : Option (List Char) := utf8Aux l 0 0 0

/-- Split at the first space byte, as one step of
`message.split(b' ', 2)`. -/
def splitFirst : Bytes → Option (Bytes × Bytes)
  | [] => none
  | x :: xs =>
    if x = 32 then some ([], xs)
    else (splitFirst xs).map (fun p => (x :: p.1, p.2))

/-- `prefix, name, doc = message.split(b' ', 2)`: succeeds exactly when
the message holds at least two spaces; otherwise the unpacking raises
`ValueError`. -/
def pySplit2 (msg : Bytes) : Option (Bytes × Bytes × Bytes) := do
  let (a, r) ← splitFirst msg
  let (b, c) ← splitFirst r
  some (a, b, c)

/-- Outcome of one iteration of the `_poll` loop for one message. -/
inductive PollEvent (α : Type) where
  | dispatched (nm : List Char) (doc : α)
  | ignored
  | badDoc (nm : List Char)
deriving DecidableEq

/-- One iteration of `RemoteDispatcher._poll` (lines 79-89): split the
frame (an unpacking failure is an uncaught exception, `none`); decode
the name bytes (line 82, also outside the `try`: a decode failure is
likewise uncaught); drop the message when a non-empty subscribe prefix
does not match; otherwise deserialize and look the name up in
`DocumentNames` inside the `try`, logging (`badDoc`, tagged with
the document kind) on failure. -/
def pollOne {α : Type} (pre : Bytes) (deser : Bytes → Option α) (msg : Bytes) :
    Option (PollEvent α) :=
  match pySplit2 msg with
  | none => none
  | some (p, nmB, body) =>
    match utf8Decode nmB with
    | none => none
    | some nm =>
      if pre = [] ∨ p = pre then
        match deser body with
        | none => some (.badDoc nm)
        | some d =>
          if nm ∈ documentNames then some (.dispatched nm d) else some (.badDoc nm)
      else some .ignored

/-- The receive loop over a list of inbound messages: each message
produces one `PollEvent`; an uncaught exception kills the polling task,
so every later message is lost (`false` = the loop aborted). -/
def pollLoop {α : Type} (pre : Bytes) (deser : Bytes → Option α) :
    List Bytes → List (PollEvent α) × Bool
  | [] => ([], true)
  | m :: ms =>
    match pollOne pre deser m with
    | none => ([], false)
    | some e =>
      let r := pollLoop pre deser ms
      (e :: r.1, r.2)

/-- The `prefix` argument of `RemoteDispatcher.__init__`: either a text
string or a byte string. -/
inductive PrefixArg where
  | ofStr (s : String)
  | ofBytes (b : Bytes)

/-- The validation in `__init__` (lines 49-52): a `str` is rejected,
and so is a byte string containing the space byte. -/
def validatePrefixArg : PrefixArg → Except String Bytes
  | .ofStr _ => .error "prefix must be bytes, not string"
  | .ofBytes b =>
    if 32 ∈ b then .error "prefix may not contain b' '" else .ok b

/-- The restart-relevant state of a `RemoteDispatcher`: its polling
task and the `closed` flag. -/
structure RemoteDispatcher where
  task : Option Unit
  closed : Bool
deriving DecidableEq

/-- `RemoteDispatcher.stop` (lines 103-108): cancel the task, halt the
loop, and mark the dispatcher closed. -/
def RemoteDispatcher.stop (d : RemoteDispatcher) : RemoteDispatcher :=
  { d with task := none, closed := true }

/-- The error of restarting a stopped dispatcher (the `RuntimeError`
of `start`, the specification's `AlreadyClosedError`). -/
inductive DispatchErr where
  | alreadyClosed
deriving DecidableEq

/-- `RemoteDispatcher.start` (lines 91-101): refuse to run when
`closed` is set, otherwise create the polling task. -/
def RemoteDispatcher.start (d : RemoteDispatcher) : Except DispatchErr RemoteDispatcher :=
  if d.closed then .error .alreadyClosed else .ok { d with task := some () }

lemma pollOne_isSome {α : Type} (pre : Bytes) (deser : Bytes → Option α) (msg : Bytes)
    (h : ((pySplit2 msg).bind (fun t => utf8Decode t.2.1)).isSome = true) :
    (pollOne pre deser msg).isSome = true := by
  cases hsp : pySplit2 msg with
  | none => rw [hsp] at h; exact absurd h (by simp)
  | some t =>
    obtain ⟨p, nmB, body⟩ := t
    rw [hsp] at h
    simp only [Option.some_bind] at h
    obtain ⟨nm, hdec⟩ := Option.isSome_iff_exists.mp h
    simp only [pollOne, hsp, hdec]
    split
    · cases deser body with
      | none => rfl
      | some d => by_cases hnm : nm ∈ documentNames <;> simp [hnm]
    · rfl

lemma pollLoop_total {α : Type} (pre : Bytes) (deser : Bytes → Option α) :
    ∀ msgs : List Bytes,
      (∀ m ∈ msgs, ((pySplit2 m).bind (fun t => utf8Decode t.2.1)).isSome = true) →
      (pollLoop pre deser msgs).2 = true
      ∧ (pollLoop pre deser msgs).1.length = msgs.length
  | [], _ => ⟨rfl, rfl⟩
  | m :: ms, hwf => by
    have h1 := pollOne_isSome pre deser m (hwf m (List.mem_cons_self m ms))
    obtain ⟨e, he⟩ := Option.isSome_iff_exists.mp h1
    have ih := pollLoop_total pre deser ms (fun x hx => hwf x (List.mem_cons_of_mem m hx))
    simp only [pollLoop, he]
    exact ⟨ih.1, by simp [ih.2]⟩

/-- C6 counterexample.  First: the prefixed subscriber receives a
malformed frame (no two spaces) followed by a perfectly well-formed
`start` message — the unpacking `ValueError` is raised outside the
`try`, the polling task dies, and the second message is never
processed.  Second: a two-space frame whose name field is the invalid
UTF-8 byte `0xff` — `name.decode()` (also outside the `try`)
raises, with the same fatal effect. -/
theorem claim_C6_counterexample :
    pollLoop [97, 110] (fun _ => some ())
      [[120, 121], [97, 110, 32, 115, 116, 97, 114, 116, 32, 120]] = ([], false)
    ∧ pollLoop [97, 110] (fun _ => some ())
      [[97, 110, 32, 255, 32, 120], [97, 110, 32, 115, 116, 97, 114, 116, 32, 120]]
        = ([], false) := by
  constructor <;> decide

/-- C6 amended: only failures after the frame split and the name
decode are caught per-message.  For message streams in which every
frame holds at least two spaces and a UTF-8-decodable name field, the
loop never aborts and yields one outcome per message; and on any
prefix-matching such frame whose body fails to deserialize the
iteration logs the offending document kind (`badDoc nm`) and the loop
moves on.  A frame with fewer than two spaces, or with an undecodable
name, kills the polling task (see the counterexample). -/
theorem claim_C6_amended_loop {α : Type} (pre : Bytes) (deser : Bytes → Option α)
    (msgs : List Bytes)
    (hwf : ∀ m ∈ msgs, ((pySplit2 m).bind (fun t => utf8Decode t.2.1)).isSome = true) :
    ((pollLoop pre deser msgs).2 = true
      ∧ (pollLoop pre deser msgs).1.length = msgs.length)
    ∧ ∀ m p nmB body nm, pySplit2 m = some (p, nmB, body) → utf8Decode nmB = some nm →
        (pre = [] ∨ p = pre) → deser body = none →
        pollOne pre deser m = some (.badDoc nm) := by
  refine ⟨pollLoop_total pre deser msgs hwf, ?_⟩
  intro m p nmB body nm hsp hdec hpre hde
  simp only [pollOne, hsp, hdec, if_pos hpre, hde]

/-- Witness for the amended C6: one well-formed message whose body the
deserializer rejects is logged and the loop ends cleanly. -/
theorem claim_C6_amended_loop_witness :
    (∀ m ∈ [[97, 110, 32, 115, 32, 120]],
      ((pySplit2 m).bind (fun t => utf8Decode t.2.1)).isSome = true)
    ∧ (((pollLoop [97, 110] (fun _ : Bytes => (none : Option Unit))
          [[97, 110, 32, 115, 32, 120]]).2 = true
        ∧ (pollLoop [97, 110] (fun _ : Bytes => (none : Option Unit))
            [[97, 110, 32, 115, 32, 120]]).1.length = [[97, 110, 32, 115, 32, 120]].length)
      ∧ ∀ m p nmB body nm, pySplit2 m = some (p, nmB, body) → utf8Decode nmB = some nm →
          ([97, 110] = [] ∨ p = [97, 110]) →
          (fun _ : Bytes => (none : Option Unit)) body = none →
          pollOne [97, 110] (fun _ : Bytes => (none : Option Unit)) m
            = some (.badDoc nm)) :=
  ⟨by decide,
   claim_C6_amended_loop [97, 110] (fun _ : Bytes => (none : Option Unit))
     [[97, 110, 32, 115, 32, 120]] (by decide)⟩

/-- C9: once `stop` has run, `closed` is set and every subsequent
`start` fails with the already-closed error; the instance cannot be
restarted. -/
theorem claim_C9_restart_rejected (d : RemoteDispatcher) :
    (d.stop).start = .error .alreadyClosed := by
  simp [RemoteDispatcher.stop, RemoteDispatcher.start]

/-- Witness for C9 on a dispatcher that was running before `stop`. -/
theorem claim_C9_restart_rejected_witness :
    (RemoteDispatcher.stop ⟨some (), false⟩).start = .error .alreadyClosed :=
  claim_C9_restart_rejected ⟨some (), false⟩

/-- C10: construction rejects a text-string prefix and any byte prefix
containing a space with `ValueError`; and a subscriber whose prefix is
the empty byte string never discards an inbound message for its prefix
tag. -/
theorem claim_C10_prefix_validation :
    (∀ s, validatePrefixArg (.ofStr s) = .error "prefix must be bytes, not string")
    ∧ (∀ b, validatePrefixArg (.ofBytes b)
        = if 32 ∈ b then .error "prefix may not contain b' '" else .ok b)
    ∧ (∀ (α : Type) (deser : Bytes → Option α) (msg : Bytes),
        pollOne [] deser msg ≠ some PollEvent.ignored) := by
  refine ⟨fun s => rfl, fun b => rfl, ?_⟩
  intro α deser msg
  cases hsp : pySplit2 msg with
  | none => simp [pollOne, hsp]
  | some t =>
    obtain ⟨p, nmB, body⟩ := t
    cases hdec : utf8Decode nmB with
    | none => simp [pollOne, hsp, hdec]
    | some nm =>
      cases hde : deser body with
      | none => simp [pollOne, hsp, hdec, hde]
      | some d =>
        by_cases hnm : nm ∈ documentNames <;> simp [pollOne, hsp, hdec, hde, hnm]

/-- Witness for C10 at a concrete string, byte prefix and message. -/
theorem claim_C10_prefix_validation_witness :
    validatePrefixArg (.ofStr "an") = .error "prefix must be bytes, not string"
    ∧ validatePrefixArg (.ofBytes [97, 32]) = .error "prefix may not contain b' '"
    ∧ pollOne [] (fun _ : Bytes => some ()) [112, 32, 110, 32, 100]
        ≠ some PollEvent.ignored :=
  ⟨claim_C10_prefix_validation.1 "an",
   (claim_C10_prefix_validation.2.1 [97, 32]).trans (by decide),
   claim_C10_prefix_validation.2.2 Unit (fun _ => some ()) [112, 32, 110, 32, 100]⟩

end AeGpcam
